import Mathlib

/-!
Verification of the agent-memory engine: a shallow embedding of the
relevant source modules (storage/sqlite.ts, storage/lance.ts,
memory/episodic.ts, memory/semantic.ts, memory/reflection.ts,
memory/retrieval.ts, core/config.ts, core/constants.ts,
utils/validation.ts) and theorems about the embedded operations.

Modelling conventions:
* ISO-8601 UTC timestamp strings are ordered lexicographically, which
  coincides with chronological order; they are modelled as `Int`
  (epoch milliseconds).  The `state` key/value table only ever stores
  timestamps, so its values are modelled as `Int` as well.
* JavaScript numbers are modelled as `ℚ`.  `Math.pow(decayRate, h)` with
  a real-valued hour count is modelled at integer-hour granularity
  (`decayRate ^ (max 0 hours).toNat`), which preserves the range and
  monotonicity facts at issue.
* Fallible external calls (embedding provider, language model) are
  modelled as oracle parameters returning `Option`; a `none` result
  corresponds to the call throwing.  Thrown exceptions are modelled with
  `Except`, the `error` branch carrying the store state left behind at
  the throw site.
* SQL tables are modelled as lists of rows; `UPDATE ... WHERE` is a map,
  `DELETE ... WHERE` is a filter, `INSERT` is an append.
* JavaScript `[...new Set(xs)]` keeps the first occurrence of each
  element, embedded below as `uniqueFirst`.
-/

namespace AgentMemory

/-- Memory types stored in the vector store (`lance.ts`). -/
inductive MemoryType where
  | event
  | entity
  | reflection
deriving DecidableEq, Repr

/-- A row of the `events` table (core/types.ts `MemoryEvent`);
`metadata` is an opaque key/value map, modelled as an association list. -/
structure MemoryEvent where
  id : String
  agent_id : String
  event_type : String
  content : String
  importance : ℚ
  entities : List String
  metadata : List (String × String)
  created_at : Int
  accessed_at : Option Int
  access_count : Nat
deriving DecidableEq, Repr

/-- A row of the `reflections` table (core/types.ts `Reflection`). -/
structure Reflection where
  id : String
  content : String
  source_ids : List String
  importance : ℚ
  depth : Nat
  created_at : Int
  accessed_at : Option Int
  access_count : Nat
deriving DecidableEq, Repr

/-- A row of the `entities` table (core/types.ts `Entity`). -/
structure Entity where
  id : String
  name : String
  entity_type : String
  summary : Option String
  observations : List String
  importance : ℚ
  created_at : Int
  updated_at : Int
  accessed_at : Option Int
  access_count : Nat
deriving DecidableEq, Repr

/-- A row of the `relations` table (core/types.ts `Relation`). -/
structure Relation where
  id : String
  from_entity : String
  to_entity : String
  relation_type : String
  weight : ℚ
  valid_from : Int
  valid_until : Option Int
  metadata : List (String × String)
  created_at : Int
deriving DecidableEq, Repr

/-- A record of the LanceDB `memories` table (lance.ts `VectorRecord`). -/
structure VectorRecord where
  memory_id : String
  memory_type : MemoryType
  vector : List ℚ
  content : String
  created_at : Int
deriving DecidableEq, Repr

/-- A row of the `core_memory` table (core/types.ts `CoreMemoryBlock`);
its content is modelled as a character list so that JavaScript `slice`
and concatenation are `List.take` and `++`. -/
structure CoreMemoryBlock where
  id : String
  block_type : String
  block_key : String
  content : List Char
  updated_at : Int
deriving DecidableEq, Repr

/-! ### utils/validation.ts -/

/-- `clamp` from utils/validation.ts:
`Math.min(Math.max(value, min), max)`. -/
def clamp (value lo hi : ℚ) : ℚ :=
  min (max value lo) hi

/-- The Crockford base32 alphabet of `ULID_REGEX` in utils/validation.ts. -/
def crockfordAlphabet : List Char :=
  "0123456789ABCDEFGHJKMNPQRSTVWXYZ".toList

/-- `isValidUlid` from utils/validation.ts: 26 characters drawn from the
Crockford base32 alphabet, case-insensitive (the regex carries the `i`
flag). -/
def isValidUlid (id : String) : Bool :=
  id.length == 26 && id.toList.all (fun c => crockfordAlphabet.contains c.toUpper)

/-- One step of first-occurrence de-duplication: keep the accumulator
when the element was already seen, otherwise append it. -/
def uniqueFirstStep (acc : List String) (x : String) : List String :=
  if x ∈ acc then acc else acc ++ [x]

/-- First-occurrence de-duplication, the semantics of JavaScript
`[...new Set(list)]` used by `SemanticMemory.updateEntity`. -/
def uniqueFirst (l : List String) : List String :=
  l.foldl uniqueFirstStep []

/-! ### core/constants.ts -/

/-- `stateKeys.lastReflectedAt` from core/constants.ts:
the per-agent reflection watermark key. -/
def lastReflectedAtKey (agentId : String) : String :=
  "last_reflected_at:" ++ agentId

/-- `stateKeys.lastReflectionAt` from core/constants.ts. -/
def lastReflectionAtKey : String :=
  "last_reflection_at"

/-! ### core/config.ts -/

/-- The `Config` interface from core/config.ts. -/
structure Config where
  dataDir : String
  decayRate : ℚ
  reflectionThreshold : ℚ
  consolidationInterval : Int
  mergeSimilarityThreshold : ℚ
  pruneAgeDays : Int
  weightRecency : ℚ
  weightImportance : ℚ
  weightRelevance : ℚ
  embeddingModel : String
  embeddingDimensions : Int
  anthropicApiKey : Option String
  logLevel : String
deriving DecidableEq, Repr

/-- `validateConfig` from core/config.ts: the conjunction of the checks
whose violation is collected into the error list (a configuration is
valid exactly when that list is empty). -/
def validConfig (c : Config) : Prop :=
  (0 < c.decayRate ∧ c.decayRate < 1) ∧
  0 ≤ c.weightRecency ∧
  0 ≤ c.weightImportance ∧
  0 ≤ c.weightRelevance ∧
  0 < c.embeddingDimensions ∧
  0 ≤ c.reflectionThreshold ∧
  (0 ≤ c.mergeSimilarityThreshold ∧ c.mergeSimilarityThreshold ≤ 1) ∧
  0 < c.pruneAgeDays ∧
  0 < c.consolidationInterval

instance (c : Config) : Decidable (validConfig c) := by
  unfold validConfig; infer_instance

/-! ### storage/sqlite.ts: the `state` table -/

/-- `SqliteStorage.setState`: `INSERT OR REPLACE INTO state`. -/
def setState (kv : List (String × Int)) (key : String) (value : Int) :
    List (String × Int) :=
  (key, value) :: kv.filter (fun p => p.1 ≠ key)

/-- `SqliteStorage.getState`: `SELECT value FROM state WHERE key = ?`. -/
def getState (kv : List (String × Int)) (key : String) : Option Int :=
  (kv.find? (fun p => p.1 = key)).map (·.2)

/-! ### storage/sqlite.ts: touch operations -/

/-- The row-level effect of `SqliteStorage.touchEvent`:
`SET accessed_at = datetime('now'), access_count = access_count + 1`. -/
def touchEventRow (e : MemoryEvent) (now : Int) : MemoryEvent :=
  { e with accessed_at := some now, access_count := e.access_count + 1 }

/-- `SqliteStorage.touchEvent` on the `events` table (`WHERE id = ?`). -/
def touchEvent (es : List MemoryEvent) (id : String) (now : Int) :
    List MemoryEvent :=
  es.map (fun e => if e.id = id then touchEventRow e now else e)

/-- The row-level effect of `SqliteStorage.touchEntity`. -/
def touchEntityRow (e : Entity) (now : Int) : Entity :=
  { e with accessed_at := some now, access_count := e.access_count + 1 }

/-- `SqliteStorage.touchEntity` on the `entities` table. -/
def touchEntity (es : List Entity) (id : String) (now : Int) : List Entity :=
  es.map (fun e => if e.id = id then touchEntityRow e now else e)

/-- The row-level effect of `SqliteStorage.touchReflection`. -/
def touchReflectionRow (r : Reflection) (now : Int) : Reflection :=
  { r with accessed_at := some now, access_count := r.access_count + 1 }

/-- `SqliteStorage.touchReflection` on the `reflections` table. -/
def touchReflection (rs : List Reflection) (id : String) (now : Int) :
    List Reflection :=
  rs.map (fun r => if r.id = id then touchReflectionRow r now else r)

/-! ### storage/sqlite.ts: core memory -/

/-- `SqliteStorage.getCoreMemoryBlock`:
`SELECT * FROM core_memory WHERE block_type = ? AND block_key = ?`. -/
def getCoreMemoryBlock (blocks : List CoreMemoryBlock)
    (blockType blockKey : String) : Option CoreMemoryBlock :=
  blocks.find? (fun b => b.block_type == blockType && b.block_key == blockKey)

/-- `SqliteStorage.upsertCoreMemory`: insert, or on `(block_type,
block_key)` conflict update `content` and `updated_at` only. -/
def upsertCoreMemory (blocks : List CoreMemoryBlock)
    (block : CoreMemoryBlock) : List CoreMemoryBlock :=
  if blocks.any
      (fun b => b.block_type == block.block_type && b.block_key == block.block_key)
  then
    blocks.map (fun b =>
      if b.block_type == block.block_type && b.block_key == block.block_key then
        { b with content := block.content, updated_at := block.updated_at }
      else b)
  else blocks ++ [block]

/-! ### memory/semantic.ts: core memory append -/

/-- The maximum core-memory block size (`CORE_MEMORY_MAX_CHARS`). -/
def CORE_MEMORY_MAX_CHARS : Nat := 5000

/-- The `append` arm of `SemanticMemory.updateCoreMemory`: the new
content is `current + "\n" + incoming` when the current content is
non-empty (JavaScript string truthiness) and `incoming` alone otherwise,
then truncated to its leading `CORE_MEMORY_MAX_CHARS` characters when it
exceeds that length. -/
def appendCoreContent (current incoming : List Char) : List Char :=
  let newContent := if current = [] then incoming else current ++ '\n' :: incoming
  if CORE_MEMORY_MAX_CHARS < newContent.length then
    newContent.take CORE_MEMORY_MAX_CHARS
  else newContent

/-- The content the `append` arm starts from:
`existing?.content ?? ''`. -/
def existingCoreContent (blocks : List CoreMemoryBlock)
    (blockType blockKey : String) : List Char :=
  ((getCoreMemoryBlock blocks blockType blockKey).map (·.content)).getD []

/-- `SemanticMemory.updateCoreMemory` restricted to the `append`
operation: read the existing block, compute the appended content, and
upsert the block (keeping an existing block's id).  Returns the block
the method returns together with the updated table. -/
def updateCoreMemoryAppend (blocks : List CoreMemoryBlock)
    (blockType blockKey : String) (incoming : List Char) (newId : String)
    (now : Int) : CoreMemoryBlock × List CoreMemoryBlock :=
  let existing := getCoreMemoryBlock blocks blockType blockKey
  let current := existingCoreContent blocks blockType blockKey
  let block : CoreMemoryBlock :=
    { id := (existing.map (·.id)).getD newId
      block_type := blockType
      block_key := blockKey
      content := appendCoreContent current incoming
      updated_at := now }
  (block, upsertCoreMemory blocks block)

/-! ### storage/sqlite.ts: entities and relations -/

/-- `SqliteStorage.getEntity`:
`SELECT * FROM entities WHERE name = ? COLLATE NOCASE LIMIT 1`. -/
def getEntityByName (es : List Entity) (name : String) : Option Entity :=
  es.find? (fun e => e.name.toLower == name.toLower)

/-- `SqliteStorage.upsertEntity`: insert, or on `name` conflict update
`entity_type`, `summary` (`COALESCE(excluded.summary, entities.summary)`),
`observations`, `importance` and `updated_at`, keeping the existing
`accessed_at` and `access_count` (and, as in SQL, the existing `id` and
`created_at`). -/
def upsertEntity (es : List Entity) (ent : Entity) : List Entity :=
  if es.any (fun e => e.name = ent.name) then
    es.map (fun e =>
      if e.name = ent.name then
        { e with
          entity_type := ent.entity_type
          summary := match ent.summary with
            | some s => some s
            | none => e.summary
          observations := ent.observations
          importance := ent.importance
          updated_at := ent.updated_at }
      else e)
  else es ++ [ent]

/-- `SqliteStorage.invalidateRelation`:
`UPDATE relations SET valid_until = ? WHERE from_entity = ? AND
to_entity = ? AND relation_type = ? AND valid_until IS NULL`. -/
def invalidateRelation (rs : List Relation)
    (fromEntity toEntity relationType : String) (validUntil : Int) :
    List Relation :=
  rs.map (fun r =>
    if r.from_entity = fromEntity ∧ r.to_entity = toEntity ∧
        r.relation_type = relationType ∧ r.valid_until = none then
      { r with valid_until := some validUntil }
    else r)

/-! ### memory/semantic.ts: entity upsert and relation creation -/

/-- `SemanticMemory.updateEntity` (the relational transaction): look up
the existing entity case-insensitively, merge observations with
first-occurrence de-duplication, resolve `summary`/`importance`/time
fields, and upsert the row.  The post-transaction vector refresh writes
only to the vector store and is not involved in the relational-row
claims proved below.  Returns the entity the method returns together
with the updated table. -/
def updateEntity (es : List Entity) (name entityType : String)
    (observations : Option (List String)) (summary : Option String)
    (importanceP : Option ℚ) (newId : String) (now : Int) :
    Entity × List Entity :=
  let existing := getEntityByName es name
  let mergedObservations :=
    match existing with
    | some ex => ex.observations ++ observations.getD []
    | none => observations.getD []
  let uniqueObservations := uniqueFirst mergedObservations
  let ent : Entity :=
    { id := (existing.map (·.id)).getD newId
      name := name
      entity_type := entityType
      summary := match summary with
        | some s => some s
        | none => existing.bind (·.summary)
      observations := uniqueObservations
      importance := importanceP.getD ((existing.map (·.importance)).getD (1/2))
      created_at := (existing.map (·.created_at)).getD now
      updated_at := now
      accessed_at := existing.bind (·.accessed_at)
      access_count := (existing.map (·.access_count)).getD 0 }
  (ent, upsertEntity es ent)

/-- The state touched by `SemanticMemory.createRelation`: the `entities`
and `relations` tables. -/
structure SemState where
  entities : List Entity
  relations : List Relation
deriving DecidableEq, Repr

/-- `SemanticMemory.createRelation`: resolve both endpoint names (an
unresolved endpoint throws before any write, leaving the state
unchanged), close any currently-open row for the resolved
`(from, to, relation_type)` triple, then insert the new open row with
`weight = 1.0`, `valid_from = now`, `valid_until = NULL`. -/
def createRelation (s : SemState) (fromName toName relationType : String)
    (newId : String) (now : Int) : SemState :=
  match getEntityByName s.entities fromName, getEntityByName s.entities toName with
  | some fe, some te =>
    let rs := invalidateRelation s.relations fe.id te.id relationType now
    { s with relations := rs ++
        [{ id := newId
           from_entity := fe.id
           to_entity := te.id
           relation_type := relationType
           weight := 1
           valid_from := now
           valid_until := none
           metadata := []
           created_at := now }] }
  | _, _ => s

/-- One `createRelation` request:
`(from_entity name, to_entity name, relation_type, generated id, now)`. -/
def RelOp := String × String × String × String × Int

/-- A sequence of `createRelation` calls applied in order. -/
def applyRelOps (ops : List RelOp) (s : SemState) : SemState :=
  ops.foldl (fun s op => createRelation s op.1 op.2.1 op.2.2.1 op.2.2.2.1 op.2.2.2.2) s

/-- The number of open rows (`valid_until IS NULL`) for a given
`(from_entity, to_entity, relation_type)` triple. -/
def openCount (rs : List Relation) (f t rt : String) : Nat :=
  rs.countP (fun r =>
    decide (r.from_entity = f ∧ r.to_entity = t ∧ r.relation_type = rt ∧
      r.valid_until = none))

/-- The bi-temporal invariant: at most one open row per triple. -/
def RelInvariant (rs : List Relation) : Prop :=
  ∀ f t rt, openCount rs f t rt ≤ 1

/-! ### storage/lance.ts -/

/-- `LanceStorage.add`: reject (`StorageError`) when the memory id fails
the ULID structural check, otherwise append the record to the `memories`
table.  The source performs no check of the vector's length against the
configured dimension count. -/
def lanceAdd (vectors : List VectorRecord) (memoryId : String)
    (memoryType : MemoryType) (vector : List ℚ) (content : String)
    (createdAt : Int) : Except String (List VectorRecord) :=
  if isValidUlid memoryId then
    .ok (vectors ++
      [{ memory_id := memoryId
         memory_type := memoryType
         vector := vector
         content := content
         created_at := createdAt }])
  else
    .error ("Invalid memory ID format: " ++ memoryId)

/-! ### memory/episodic.ts -/

/-- The state touched by `EpisodicMemory.recordEvent`: the relational
`events` table and the vector store. -/
structure EpisodicStore where
  events : List MemoryEvent
  vectors : List VectorRecord
deriving DecidableEq, Repr

/-- `SqliteStorage.deleteEvent`: `DELETE FROM events WHERE id = ?`. -/
def deleteEvent (es : List MemoryEvent) (id : String) : List MemoryEvent :=
  es.filter (fun e => !(e.id == id))

/-- `EpisodicMemory.recordEvent`: resolve importance (caller value, else
scorer when enabled, else 0.5; clamped to [0,1]), insert the relational
row, then embed and write the vector record; if embedding or the vector
write fails, delete the inserted row and re-raise.  `embedResult` is the
embedding oracle (`none` = the provider threw); `scorerScore` is the
importance scorer's answer when it is consulted. -/
def recordEvent (id : String) (agentId eventType content : String)
    (entities : List String) (metadata : List (String × String))
    (importanceParam : Option ℚ) (scorerEnabled : Bool) (scorerScore : ℚ)
    (embedResult : Option (List ℚ)) (now : Int) (s : EpisodicStore) :
    Except EpisodicStore (MemoryEvent × EpisodicStore) :=
  let importance := clamp
    (match importanceParam with
     | some i => i
     | none => if scorerEnabled then scorerScore else 1/2) 0 1
  let event : MemoryEvent :=
    { id := id
      agent_id := agentId
      event_type := eventType
      content := content
      importance := importance
      entities := entities
      metadata := metadata
      created_at := now
      accessed_at := none
      access_count := 0 }
  let s1 : EpisodicStore := { s with events := s.events ++ [event] }
  match embedResult with
  | none => .error { s1 with events := deleteEvent s1.events id }
  | some vector =>
    match lanceAdd s1.vectors id .event vector content now with
    | .error _ => .error { s1 with events := deleteEvent s1.events id }
    | .ok vs => .ok (event, { s1 with vectors := vs })

/-- Whether the `events` table holds a row with the given id. -/
def hasEventId (es : List MemoryEvent) (id : String) : Bool :=
  es.any (fun e => e.id == id)

/-- Whether the vector store holds a record with the given memory id. -/
def hasVectorId (vs : List VectorRecord) (id : String) : Bool :=
  vs.any (fun v => v.memory_id == id)

/-! ### storage/sqlite.ts: unreflected events -/

/-- Descending `created_at` order (`ORDER BY created_at DESC`). -/
def createdDesc (a b : MemoryEvent) : Prop :=
  b.created_at ≤ a.created_at

instance : DecidableRel createdDesc := fun a b =>
  inferInstanceAs (Decidable (b.created_at ≤ a.created_at))

instance : IsTotal MemoryEvent createdDesc :=
  ⟨fun a b => (le_total b.created_at a.created_at).imp id id⟩

instance : IsTrans MemoryEvent createdDesc :=
  ⟨fun _ _ _ hab hbc => le_trans hbc hab⟩

/-- `SqliteStorage.getUnreflectedEvents`: events of the agent whose
`created_at` lies strictly after the `last_reflected_at:<agent_id>`
watermark (no filter when the watermark is unset), ordered by descending
`created_at`, capped at `limit` (default 500). -/
def getUnreflectedEvents (es : List MemoryEvent) (kv : List (String × Int))
    (agentId : String) (limit : Nat := 500) : List MemoryEvent :=
  let lastReflectedAt := getState kv (lastReflectedAtKey agentId)
  let filtered := es.filter (fun e =>
    e.agent_id == agentId &&
      (match lastReflectedAt with
       | some w => decide (w < e.created_at)
       | none => true))
  (filtered.insertionSort createdDesc).take limit

/-! ### memory/reflection.ts -/

/-- The state touched by `ReflectionEngine.reflect`: the `events` and
`reflections` tables, the vector store, and the `state` table. -/
structure ReflectStore where
  events : List MemoryEvent
  reflections : List Reflection
  vectors : List VectorRecord
  kv : List (String × Int)
deriving DecidableEq, Repr

/-- `SqliteStorage.insertReflection`. -/
def insertReflection (rs : List Reflection) (r : Reflection) :
    List Reflection :=
  rs ++ [r]

/-- The per-question loop of `ReflectionEngine.reflect`: for each
question, synthesize an insight (`insightOf`; `none` = the model
returned nothing, the question is skipped), build the `Reflection` row,
insert it into the relational store, then embed the insight (`embedOf`;
`none` = the provider threw, which aborts `reflect` with the row already
inserted) and add the vector.  `ids` supplies the generated ids, one per
stored insight. -/
def reflectLoop (questions : List String) (ids : List String)
    (insightOf : String → Option String)
    (embedOf : String → Option (List ℚ)) (sourceIds : List String)
    (now : Int) (s : ReflectStore) (acc : List Reflection) :
    Except ReflectStore (List Reflection × ReflectStore) :=
  match questions with
  | [] => .ok (acc, s)
  | q :: qs =>
    match insightOf q with
    | none => reflectLoop qs ids insightOf embedOf sourceIds now s acc
    | some insight =>
      let rid := ids.headD ""
      let r : Reflection :=
        { id := rid
          content := insight
          source_ids := sourceIds
          importance := 7/10
          depth := 1
          created_at := now
          accessed_at := none
          access_count := 0 }
      let s1 := { s with reflections := insertReflection s.reflections r }
      match embedOf insight with
      | none => .error s1
      | some vector =>
        match lanceAdd s1.vectors rid .reflection vector insight now with
        | .error _ => .error s1
        | .ok vs =>
          reflectLoop qs ids.tail insightOf embedOf sourceIds now
            { s1 with vectors := vs } (acc ++ [r])

/-- `ReflectionEngine.reflect`: return empty without an API client;
return empty when there are no unreflected events; unless forced, return
empty below the cumulative-importance threshold; otherwise run the
insight loop (`questions` is the parsed output of the salient-question
call) and finally set the `last_reflection_at` state key.  The `error`
branch carries the store as left by a thrown embed/vector call. -/
def reflect (client : Bool) (threshold : ℚ) (agentId : String)
    (force : Bool) (questions : List String)
    (insightOf : String → Option String)
    (embedOf : String → Option (List ℚ)) (ids : List String) (now : Int)
    (s : ReflectStore) : Except ReflectStore (List Reflection × ReflectStore) :=
  if client = false then .ok ([], s)
  else
    let unreflected := getUnreflectedEvents s.events s.kv agentId 500
    if unreflected.isEmpty then .ok ([], s)
    else
      let cumulativeImportance := (unreflected.map (fun e => e.importance * 10)).sum
      if force = false ∧ cumulativeImportance < threshold then .ok ([], s)
      else
        match reflectLoop questions ids insightOf embedOf
            (unreflected.map (·.id)) now s [] with
        | .error s1 => .error s1
        | .ok (reflections, s1) =>
          .ok (reflections, { s1 with kv := setState s1.kv lastReflectionAtKey now })

/-- Projection of the `error` branch of a `reflect` outcome. -/
def reflectErrorState :
    Except ReflectStore (List Reflection × ReflectStore) → Option ReflectStore
  | .error s => some s
  | .ok _ => none

/-! ### memory/retrieval.ts -/

/-- One hit returned by `LanceStorage.search` (lance.ts
`VectorSearchResult`). -/
structure VectorSearchResult where
  memory_id : String
  memory_type : MemoryType
  content : String
  created_at : Int
  distance : ℚ
deriving DecidableEq, Repr

/-- The record `RetrievalEngine.resolveMemoryFromMaps` produces: the
fields of the hydrated row that scoring consumes.  (The opaque metadata
passthrough for events is not modelled; no claim concerns it.) -/
structure ResolvedMemory where
  content : String
  importance : ℚ
  created_at : Int
  accessed_at : Option Int
deriving DecidableEq, Repr

/-- A scored recall result (core/types.ts `ScoredMemory`, metadata
passthrough omitted). -/
structure ScoredMemory where
  id : String
  source : MemoryType
  content : String
  score : ℚ
  recency_score : ℚ
  importance_score : ℚ
  relevance_score : ℚ
  created_at : Int
deriving DecidableEq, Repr

/-- The recall response (core/types.ts `RecallResult`). -/
structure RecallResult where
  core_memory : List CoreMemoryBlock
  memories : List ScoredMemory
  total_searched : Nat
deriving DecidableEq, Repr

/-- `RetrievalEngine.calculateRecency`:
`decayRate ^ max(0, hoursSince(lastAccessed))`, with the hour count
modelled at integer granularity (milliseconds divided by 3 600 000). -/
def calculateRecency (c : Config) (lastAccessedAt now : Int) : ℚ :=
  c.decayRate ^ (max 0 ((now - lastAccessedAt) / 3600000)).toNat

/-- `RetrievalEngine.resolveMemoryFromMaps`: look the id up in the
hydration map of its type and project the scored fields (for entities,
the content string is assembled from name, type, summary and
observations). -/
def resolveMemoryFromMaps (id : String) (type : MemoryType)
    (events : List MemoryEvent) (entities : List Entity)
    (reflections : List Reflection) : Option ResolvedMemory :=
  match type with
  | .event =>
    (events.find? (fun e => e.id == id)).map (fun e =>
      { content := e.content
        importance := e.importance
        created_at := e.created_at
        accessed_at := e.accessed_at })
  | .entity =>
    (entities.find? (fun e => e.id == id)).map (fun e =>
      { content := String.intercalate "\n"
          ((e.name ++ " (" ++ e.entity_type ++ ")") ::
            ((match e.summary with | some s => [s] | none => []) ++
              e.observations.map (fun o => "- " ++ o)))
        importance := e.importance
        created_at := e.created_at
        accessed_at := e.accessed_at })
  | .reflection =>
    (reflections.find? (fun r => r.id == id)).map (fun r =>
      { content := r.content
        importance := r.importance
        created_at := r.created_at
        accessed_at := r.accessed_at })

/-- The agent-id drop of `RetrievalEngine.recall` step 5: an event hit
is dropped when an agent filter is set and the hydrated event's
`agent_id` differs. -/
def droppedByAgentFilter (agentFilter : Option String)
    (events : List MemoryEvent) (r : VectorSearchResult) : Bool :=
  match agentFilter, r.memory_type with
  | some a, .event =>
    match events.find? (fun e => e.id == r.memory_id) with
    | some e => e.agent_id != a
    | none => false
  | _, _ => false

/-- Scoring of a single vector hit in `RetrievalEngine.recall`:
hydration lookup, agent filter, `relevance = clamp_[0,1](1 − d/2)`,
`recency = decayRate ^ max(0, hours)`, `importance = clamp(stored, 0, 1)`,
and the weighted-sum score. -/
def scoreOne (c : Config) (agentFilter : Option String) (now : Int)
    (events : List MemoryEvent) (entities : List Entity)
    (reflections : List Reflection) (r : VectorSearchResult) :
    Option ScoredMemory :=
  match resolveMemoryFromMaps r.memory_id r.memory_type events entities reflections with
  | none => none
  | some m =>
    if droppedByAgentFilter agentFilter events r then none
    else
      let relevance := max 0 (min 1 (1 - r.distance / 2))
      let recency := calculateRecency c ((m.accessed_at).getD m.created_at) now
      let importance := clamp m.importance 0 1
      some
        { id := r.memory_id
          source := r.memory_type
          content := m.content
          score := c.weightRecency * recency +
            c.weightImportance * importance +
            c.weightRelevance * relevance
          recency_score := recency
          importance_score := importance
          relevance_score := relevance
          created_at := m.created_at }

/-- Descending score order, the comparator of
`scoredMemories.sort((a, b) => b.score - a.score)`. -/
def scoreDesc (a b : ScoredMemory) : Prop :=
  b.score ≤ a.score

instance : DecidableRel scoreDesc := fun a b =>
  inferInstanceAs (Decidable (b.score ≤ a.score))

instance : IsTotal ScoredMemory scoreDesc :=
  ⟨fun a b => (le_total b.score a.score).imp id id⟩

instance : IsTrans ScoredMemory scoreDesc :=
  ⟨fun _ _ _ hab hbc => le_trans hbc hab⟩

/-- `RetrievalEngine.recall` after the embedding and vector search:
score each vector hit against the hydration maps, sort descending by
score, truncate to `limit`, and assemble the response (the touch
side-effects write to the relational store only and do not affect the
hydration maps, which are fetched before the loop).  `vectorResults` is
the output of `lance.search(queryVector, 3 * limit)`. -/
def recallMemories (c : Config) (limit : Nat) (agentFilter : Option String)
    (includeCore : Bool) (coreBlocks : List CoreMemoryBlock)
    (vectorResults : List VectorSearchResult) (events : List MemoryEvent)
    (entities : List Entity) (reflections : List Reflection) (now : Int) :
    RecallResult :=
  let scoredMemories :=
    vectorResults.filterMap (scoreOne c agentFilter now events entities reflections)
  let topMemories := (scoredMemories.insertionSort scoreDesc).take limit
  { core_memory := if includeCore then coreBlocks else []
    memories := topMemories
    total_searched := vectorResults.length }

/-! ## Helper lemmas -/

/-- `find?` commutes with a map that does not change the predicate. -/
theorem find?_map_of_pred_eq {α : Type} (p : α → Bool) (g : α → α)
    (l : List α) (hg : ∀ a, p (g a) = p a) :
    (l.map g).find? p = (l.find? p).map g := by
  induction l with
  | nil => rfl
  | cons a l ih =>
    cases h : p a with
    | true =>
      rw [List.map_cons, List.find?_cons_of_pos _ (by rw [hg]; exact h),
        List.find?_cons_of_pos _ h, Option.map_some']
    | false =>
      rw [List.map_cons, List.find?_cons_of_neg _ (by rw [hg, h]; simp),
        List.find?_cons_of_neg _ (by rw [h]; simp), ih]

/-- Iterated touches of an event row add one access per touch. -/
theorem touchEventRow_iterate (e : MemoryEvent) (times : List Int) :
    (times.foldl touchEventRow e).access_count = e.access_count + times.length := by
  induction times generalizing e with
  | nil => simp
  | cons t ts ih =>
    simp only [List.foldl_cons, ih, touchEventRow, List.length_cons]
    omega

/-- Iterated touches of an entity row add one access per touch. -/
theorem touchEntityRow_iterate (e : Entity) (times : List Int) :
    (times.foldl touchEntityRow e).access_count = e.access_count + times.length := by
  induction times generalizing e with
  | nil => simp
  | cons t ts ih =>
    simp only [List.foldl_cons, ih, touchEntityRow, List.length_cons]
    omega

/-- Iterated touches of a reflection row add one access per touch. -/
theorem touchReflectionRow_iterate (r : Reflection) (times : List Int) :
    (times.foldl touchReflectionRow r).access_count = r.access_count + times.length := by
  induction times generalizing r with
  | nil => simp
  | cons t ts ih =>
    simp only [List.foldl_cons, ih, touchReflectionRow, List.length_cons]
    omega

/-! ## C9: touch operations -/

/-- C9: every touch operation (`touchEvent`, `touchEntity`,
`touchReflection`) sets `accessed_at` to the current time, increments
`access_count` by exactly one (hence over a sequence of touches the
count grows by the length of the sequence, strictly increasing), and
leaves every other field of the row unchanged — in particular an
entity's `updated_at` is unchanged. -/
theorem touch_sets_access_and_nothing_else :
    (∀ (e : MemoryEvent) (now : Int),
      (touchEventRow e now).accessed_at = some now ∧
      (touchEventRow e now).access_count = e.access_count + 1 ∧
      (touchEventRow e now).id = e.id ∧
      (touchEventRow e now).agent_id = e.agent_id ∧
      (touchEventRow e now).event_type = e.event_type ∧
      (touchEventRow e now).content = e.content ∧
      (touchEventRow e now).importance = e.importance ∧
      (touchEventRow e now).entities = e.entities ∧
      (touchEventRow e now).metadata = e.metadata ∧
      (touchEventRow e now).created_at = e.created_at) ∧
    (∀ (e : Entity) (now : Int),
      (touchEntityRow e now).accessed_at = some now ∧
      (touchEntityRow e now).access_count = e.access_count + 1 ∧
      (touchEntityRow e now).id = e.id ∧
      (touchEntityRow e now).name = e.name ∧
      (touchEntityRow e now).entity_type = e.entity_type ∧
      (touchEntityRow e now).summary = e.summary ∧
      (touchEntityRow e now).observations = e.observations ∧
      (touchEntityRow e now).importance = e.importance ∧
      (touchEntityRow e now).created_at = e.created_at ∧
      (touchEntityRow e now).updated_at = e.updated_at) ∧
    (∀ (r : Reflection) (now : Int),
      (touchReflectionRow r now).accessed_at = some now ∧
      (touchReflectionRow r now).access_count = r.access_count + 1 ∧
      (touchReflectionRow r now).id = r.id ∧
      (touchReflectionRow r now).content = r.content ∧
      (touchReflectionRow r now).source_ids = r.source_ids ∧
      (touchReflectionRow r now).importance = r.importance ∧
      (touchReflectionRow r now).depth = r.depth ∧
      (touchReflectionRow r now).created_at = r.created_at) ∧
    (∀ (e : MemoryEvent) (times : List Int),
      (times.foldl touchEventRow e).access_count = e.access_count + times.length) ∧
    (∀ (e : Entity) (times : List Int),
      (times.foldl touchEntityRow e).access_count = e.access_count + times.length) ∧
    (∀ (r : Reflection) (times : List Int),
      (times.foldl touchReflectionRow r).access_count = r.access_count + times.length) := by
  refine ⟨fun e now => ?_, fun e now => ?_, fun r now => ?_,
    touchEventRow_iterate, touchEntityRow_iterate, touchReflectionRow_iterate⟩
  · exact ⟨rfl, rfl, rfl, rfl, rfl, rfl, rfl, rfl, rfl, rfl⟩
  · exact ⟨rfl, rfl, rfl, rfl, rfl, rfl, rfl, rfl, rfl, rfl⟩
  · exact ⟨rfl, rfl, rfl, rfl, rfl, rfl, rfl, rfl⟩

/-! ## C6: LanceStorage.add validation -/

/-- A structurally valid 26-character Crockford-base32 id. -/
def c6ValidId : String := "01ARZ3NDEKTSV4RRFFQ69G5FAV"

set_option maxRecDepth 4000 in
/-- C6 (failing-input evaluation): with the deployment dimension
configured at 384, `LanceStorage.add` accepts a vector of length 128 and
writes the record — the source performs no dimension check, although
`lance.test.ts` expects `add` to reject with "Vector dimension mismatch:
expected 384, got 128".  The id check, in contrast, does reject. -/
theorem lanceAdd_accepts_wrong_dimension :
    (lanceAdd [] c6ValidId .event (List.replicate 128 (0 : ℚ)) "content" 0).toOption =
      some [{ memory_id := c6ValidId
              memory_type := .event
              vector := List.replicate 128 (0 : ℚ)
              content := "content"
              created_at := 0 }] ∧
    (List.replicate 128 (0 : ℚ)).length ≠ 384 ∧
    (lanceAdd [] "not-a-ulid" .event (List.replicate 384 (0 : ℚ)) "content" 0).toOption =
      none := by
  refine ⟨by rfl, by decide, by rfl⟩

/-! ## C3: recordEvent compensation -/

/-- After the compensating delete, no row with the id remains. -/
theorem hasEventId_deleteEvent (es : List MemoryEvent) (id : String) :
    hasEventId (deleteEvent es id) id = false := by
  simp only [hasEventId, deleteEvent]
  rw [Bool.eq_false_iff]
  intro htrue
  rw [List.any_eq_true] at htrue
  obtain ⟨x, hx, hbeq⟩ := htrue
  rw [List.mem_filter] at hx
  exact absurd hbeq (by simpa using hx.2)

/-- C3: for every `recordEvent` call, if the embed-and-vector-write step
fails, the relational row inserted for the event is deleted before the
error is re-raised: afterwards either both the relational row with the
event id and a vector record with that memory id exist (success), or
neither does (failure).  Freshness of the generated id is the stated
precondition. -/
theorem recordEvent_compensation
    (id agentId eventType content : String) (entities : List String)
    (metadata : List (String × String)) (importanceParam : Option ℚ)
    (scorerEnabled : Bool) (scorerScore : ℚ) (embedResult : Option (List ℚ))
    (now : Int) (s : EpisodicStore)
    (_he : hasEventId s.events id = false)
    (hv : hasVectorId s.vectors id = false) :
    match recordEvent id agentId eventType content entities metadata
        importanceParam scorerEnabled scorerScore embedResult now s with
    | .ok (_, s1) => hasEventId s1.events id = true ∧ hasVectorId s1.vectors id = true
    | .error s1 => hasEventId s1.events id = false ∧ hasVectorId s1.vectors id = false := by
  unfold recordEvent
  cases embedResult with
  | none =>
    exact ⟨hasEventId_deleteEvent _ _, hv⟩
  | some v =>
    unfold lanceAdd
    cases hu : isValidUlid id with
    | false =>
      simp only [hu, Bool.false_eq_true, if_false]
      exact ⟨hasEventId_deleteEvent _ _, hv⟩
    | true =>
      simp only [hu, if_true]
      constructor
      · simp [hasEventId]
      · simp [hasVectorId]

/-- Witness for C3 at a concrete input. -/
theorem recordEvent_compensation_witness :
    hasEventId ([] : List MemoryEvent) "01ARZ3NDEKTSV4RRFFQ69G5FAV" = false ∧
    hasVectorId ([] : List VectorRecord) "01ARZ3NDEKTSV4RRFFQ69G5FAV" = false ∧
    (match recordEvent "01ARZ3NDEKTSV4RRFFQ69G5FAV" "a" "observation" "hello"
        [] [] none false (1/2) (some [1]) 0 ⟨[], []⟩ with
     | .ok (_, s1) =>
       hasEventId s1.events "01ARZ3NDEKTSV4RRFFQ69G5FAV" = true ∧
         hasVectorId s1.vectors "01ARZ3NDEKTSV4RRFFQ69G5FAV" = true
     | .error s1 =>
       hasEventId s1.events "01ARZ3NDEKTSV4RRFFQ69G5FAV" = false ∧
         hasVectorId s1.vectors "01ARZ3NDEKTSV4RRFFQ69G5FAV" = false) :=
  ⟨by rfl, by rfl,
    recordEvent_compensation "01ARZ3NDEKTSV4RRFFQ69G5FAV" "a" "observation"
      "hello" [] [] none false (1/2) (some [1]) 0 ⟨[], []⟩ (by rfl) (by rfl)⟩

/-! ## C10: reflect with no unreflected events -/

/-- C10: when an agent has zero unreflected events, `reflect` returns
the empty list — even with `force = true` and the language-model client
configured — and leaves the entire store (rows, vectors and state keys)
unchanged. -/
theorem reflect_no_unreflected_noop (threshold : ℚ) (agentId : String)
    (force : Bool) (questions : List String)
    (insightOf : String → Option String) (embedOf : String → Option (List ℚ))
    (ids : List String) (now : Int) (s : ReflectStore)
    (h : getUnreflectedEvents s.events s.kv agentId 500 = []) :
    reflect true threshold agentId force questions insightOf embedOf ids now s =
      .ok ([], s) := by
  unfold reflect
  simp [h]

/-- Witness for C10 at a concrete input. -/
theorem reflect_no_unreflected_noop_witness :
    getUnreflectedEvents ((⟨[], [], [], []⟩ : ReflectStore)).events
      ((⟨[], [], [], []⟩ : ReflectStore)).kv "default" 500 = [] ∧
    reflect true 150 "default" true [] (fun _ => none) (fun _ => none) [] 0
      (⟨[], [], [], []⟩ : ReflectStore) =
      .ok ([], (⟨[], [], [], []⟩ : ReflectStore)) :=
  ⟨by rfl,
    reflect_no_unreflected_noop 150 "default" true [] (fun _ => none)
      (fun _ => none) [] 0 (⟨[], [], [], []⟩ : ReflectStore) (by rfl)⟩

/-! ## C1: the per-agent reflection watermark -/

/-- An unreflected event of agent "a". -/
def c1Event : MemoryEvent :=
  { id := "01ARZ3NDEKTSV4RRFFQ69G5FAV"
    agent_id := "a"
    event_type := "observation"
    content := "deploy failed"
    importance := 1
    entities := []
    metadata := []
    created_at := 0
    accessed_at := none
    access_count := 0 }

/-- A store in which agent "a" has exactly one unreflected event. -/
def c1Store : ReflectStore :=
  { events := [c1Event], reflections := [], vectors := [], kv := [] }

/-- C1 (failing-input evaluation): a successful `reflect` run that
stores one insight sets the `last_reflection_at` state key but never
writes the `last_reflected_at:a` watermark that
`getUnreflectedEvents` filters on, so the just-processed event is
returned again by the next unreflected query instead of being retired. -/
theorem reflect_does_not_advance_watermark :
    (reflect true 1 "a" true ["What changed?"] (fun _ => some "insight")
        (fun _ => some [1]) ["01BX5ZZKBKACTAV9WEVGEMMVRZ"] 5 c1Store).toOption.map
      (fun p => (p.1.map (·.id),
        getState p.2.kv (lastReflectedAtKey "a"),
        getState p.2.kv lastReflectionAtKey,
        getUnreflectedEvents p.2.events p.2.kv "a" 500)) =
    some (["01BX5ZZKBKACTAV9WEVGEMMVRZ"], none, some 5, [c1Event]) := by
  rfl

/-! ## C2: reflection rows are inserted before embedding -/

/-- An unreflected event of agent "b". -/
def c2Event : MemoryEvent :=
  { id := "01ARZ3NDEKTSV4RRFFQ69G5FAV"
    agent_id := "b"
    event_type := "observation"
    content := "deploy failed"
    importance := 1
    entities := []
    metadata := []
    created_at := 0
    accessed_at := none
    access_count := 0 }

/-- A store in which agent "b" has exactly one unreflected event. -/
def c2Store : ReflectStore :=
  { events := [c2Event], reflections := [], vectors := [], kv := [] }

/-- C2 (failing-input evaluation): when the embedding call for an
insight fails, the error propagates out of `reflect` with the relational
reflection row already inserted and the vector store untouched — the
relational store holds one reflection row whose vector write never
began, because the source inserts the row before calling embed. -/
theorem reflect_leaves_orphan_row_on_embed_failure :
    (reflectErrorState (reflect true 1 "b" true ["What changed?"]
        (fun _ => some "insight") (fun _ => none)
        ["01BX5ZZKBKACTAV9WEVGEMMVRZ"] 5 c2Store)).map
      (fun s1 => (s1.reflections.map (·.id), s1.vectors.length,
        getState s1.kv lastReflectionAtKey)) =
    some (["01BX5ZZKBKACTAV9WEVGEMMVRZ"], 0, none) := by
  rfl

/-! ## C4: the bi-temporal open-row invariant -/

/-- After `invalidateRelation`, no open row remains for the triple it
targeted. -/
theorem openCount_invalidate_self (rs : List Relation) (f t rt : String)
    (u : Int) : openCount (invalidateRelation rs f t rt u) f t rt = 0 := by
  unfold openCount invalidateRelation
  rw [List.countP_map, List.countP_eq_zero]
  intro r _
  by_cases h : r.from_entity = f ∧ r.to_entity = t ∧ r.relation_type = rt ∧
      r.valid_until = none
  · simp [Function.comp, h]
  · simp [Function.comp, h]

/-- `invalidateRelation` leaves the open count of every other triple
unchanged. -/
theorem openCount_invalidate_other (rs : List Relation) (f t rt : String)
    (u : Int) (f' t' rt' : String) (h : ¬(f' = f ∧ t' = t ∧ rt' = rt)) :
    openCount (invalidateRelation rs f t rt u) f' t' rt' =
      openCount rs f' t' rt' := by
  unfold openCount invalidateRelation
  rw [List.countP_map]
  apply List.countP_congr
  intro r _
  by_cases hr : r.from_entity = f ∧ r.to_entity = t ∧ r.relation_type = rt ∧
      r.valid_until = none
  · have hfalse : ¬(r.from_entity = f' ∧ r.to_entity = t' ∧
        r.relation_type = rt' ∧ r.valid_until = none) := by
      rintro ⟨h1, h2, h3, _⟩
      exact h ⟨h1 ▸ hr.1.symm ▸ rfl, h2 ▸ hr.2.1.symm ▸ rfl, h3 ▸ hr.2.2.1.symm ▸ rfl⟩
    simp [Function.comp, hr, hfalse]
    intro h1 h2 h3
    exact h ⟨h1.symm, h2.symm, h3.symm⟩
  · simp [Function.comp, hr]

/-- `createRelation` preserves the at-most-one-open-row invariant. -/
theorem createRelation_preserves_invariant (s : SemState)
    (fromName toName relationType newId : String) (now : Int)
    (h : RelInvariant s.relations) :
    RelInvariant (createRelation s fromName toName relationType newId now).relations := by
  unfold createRelation
  cases hfe : getEntityByName s.entities fromName with
  | none => exact h
  | some fe =>
    cases hte : getEntityByName s.entities toName with
    | none => exact h
    | some te =>
      intro f' t' rt'
      unfold openCount
      rw [List.countP_append]
      by_cases htrip : f' = fe.id ∧ t' = te.id ∧ rt' = relationType
      · obtain ⟨h1, h2, h3⟩ := htrip
        have hz := openCount_invalidate_self s.relations fe.id te.id relationType now
        unfold openCount at hz
        rw [h1, h2, h3, hz]
        simp
      · have ho := openCount_invalidate_other s.relations fe.id te.id
          relationType now f' t' rt' htrip
        unfold openCount at ho
        rw [ho]
        have hnew : (List.countP (fun r =>
            decide (r.from_entity = f' ∧ r.to_entity = t' ∧
              r.relation_type = rt' ∧ r.valid_until = none))
            [({ id := newId, from_entity := fe.id, to_entity := te.id,
                relation_type := relationType, weight := 1, valid_from := now,
                valid_until := none, metadata := [], created_at := now } :
              Relation)]) = 0 := by
          rw [List.countP_eq_zero]
          intro r hr
          rw [List.mem_singleton] at hr
          subst hr
          simp only [decide_eq_true_eq]
          rintro ⟨h1, h2, h3, _⟩
          exact htrip ⟨h1.symm, h2.symm, h3.symm⟩
        rw [hnew]
        have := h f' t' rt'
        unfold openCount at this
        omega

/-- A fold of `createRelation` calls preserves the invariant. -/
theorem applyRelOps_preserves_invariant (ops : List RelOp) (s : SemState)
    (h : RelInvariant s.relations) :
    RelInvariant (applyRelOps ops s).relations := by
  induction ops generalizing s with
  | nil => exact h
  | cons op ops ih =>
    exact ih _ (createRelation_preserves_invariant s _ _ _ _ _ h)

/-- C4: for every sequence of `createRelation` operations (starting from
an empty `relations` table over any set of entities), at every point at
most one relation row per `(from_entity, to_entity, relation_type)`
triple has `valid_until = NULL`: `createRelation` first closes any
currently-open row for the triple before inserting the new open row. -/
theorem createRelation_at_most_one_open_row (ops : List RelOp)
    (entities0 : List Entity) :
    RelInvariant (applyRelOps ops
      { entities := entities0, relations := [] }).relations := by
  apply applyRelOps_preserves_invariant
  intro f t rt
  simp [openCount]

/-! ## C8: core-memory append truncation -/

/-- Looking a block up after an upsert keyed on its `(block_type,
block_key)` yields the upserted content. -/
theorem getCoreMemoryBlock_upsert (blocks : List CoreMemoryBlock)
    (block : CoreMemoryBlock) :
    (getCoreMemoryBlock (upsertCoreMemory blocks block) block.block_type
      block.block_key).map (·.content) = some block.content := by
  unfold getCoreMemoryBlock upsertCoreMemory
  by_cases ha : blocks.any
      (fun b => b.block_type == block.block_type && b.block_key == block.block_key)
  · rw [if_pos ha]
    rw [find?_map_of_pred_eq _ _ _ (fun b => by
      by_cases hb : (b.block_type == block.block_type &&
          b.block_key == block.block_key) = true
      · simp only [hb, if_pos]
      · simp only [hb, if_neg, Bool.false_eq_true, ite_false])]
    obtain ⟨b0, hb0mem, hb0⟩ := List.any_eq_true.mp ha
    cases hf : blocks.find?
        (fun b => b.block_type == block.block_type && b.block_key == block.block_key) with
    | none => exact absurd hb0 (List.find?_eq_none.mp hf b0 hb0mem)
    | some b1 =>
      have hb1 := List.find?_some hf
      simp only [Option.map_some', Option.some.injEq]
      rw [if_pos hb1]
  · rw [if_neg ha, List.find?_append]
    have hnone : blocks.find?
        (fun b => b.block_type == block.block_type && b.block_key == block.block_key) =
        none := by
      rw [List.find?_eq_none]
      intro b hb hpb
      exact ha (List.any_eq_true.mpr ⟨b, hb, hpb⟩)
    rw [hnone]
    simp

/-- The existing content of a well-formed table is within the limit. -/
theorem existingCoreContent_le (blocks : List CoreMemoryBlock)
    (blockType blockKey : String)
    (h5000 : ∀ b ∈ blocks, b.content.length ≤ CORE_MEMORY_MAX_CHARS) :
    (existingCoreContent blocks blockType blockKey).length ≤ CORE_MEMORY_MAX_CHARS := by
  unfold existingCoreContent getCoreMemoryBlock
  cases hex : blocks.find?
      (fun b => b.block_type == blockType && b.block_key == blockKey) with
  | none => simp
  | some b =>
    simp only [Option.map_some', Option.getD_some]
    exact h5000 b (List.mem_of_find?_eq_some hex)

/-- A table whose blocks carry "persona"/"default" with empty content:
a state reachable by `update_core_memory(replace, "")`. -/
def c8Blocks : List CoreMemoryBlock :=
  [{ id := "B1"
     block_type := "persona"
     block_key := "default"
     content := []
     updated_at := 0 }]

/-- C8 counterexample: a core-memory block exists (with empty content,
reachable via the `replace` operation with an empty string), yet
appending "x" stores `"x"`, not the claimed
`existing content + "\n" + appended text`: the source selects the
no-separator branch on JavaScript string truthiness (empty content),
not on block existence. -/
theorem coreMemoryAppend_counterexample :
    (getCoreMemoryBlock c8Blocks "persona" "default").isSome = true ∧
    (updateCoreMemoryAppend c8Blocks "persona" "default" ['x'] "B2" 1).1.content ≠
      existingCoreContent c8Blocks "persona" "default" ++ '\n' :: ['x'] := by
  exact ⟨by rfl, by decide⟩

/-- C8 (amended): for every core-memory append, the new content is the
existing content concatenated with a newline separator and the appended
text — or just the appended text when no block exists **or the existing
block's content is empty** — and when that string exceeds
`CORE_MEMORY_MAX_CHARS` characters the stored content is exactly its
leading `CORE_MEMORY_MAX_CHARS` characters, so the result is always
within the limit and starts with the prior content.  The hypothesis is
the table invariant that every stored block is within the limit. -/
theorem updateCoreMemoryAppend_spec (blocks : List CoreMemoryBlock)
    (blockType blockKey : String) (incoming : List Char) (newId : String)
    (now : Int)
    (h5000 : ∀ b ∈ blocks, b.content.length ≤ CORE_MEMORY_MAX_CHARS) :
    (CORE_MEMORY_MAX_CHARS <
        (if existingCoreContent blocks blockType blockKey = [] then incoming
         else existingCoreContent blocks blockType blockKey ++ '\n' :: incoming).length →
      (updateCoreMemoryAppend blocks blockType blockKey incoming newId now).1.content =
        (if existingCoreContent blocks blockType blockKey = [] then incoming
         else existingCoreContent blocks blockType blockKey ++ '\n' :: incoming).take
          CORE_MEMORY_MAX_CHARS) ∧
    ((if existingCoreContent blocks blockType blockKey = [] then incoming
      else existingCoreContent blocks blockType blockKey ++ '\n' :: incoming).length ≤
        CORE_MEMORY_MAX_CHARS →
      (updateCoreMemoryAppend blocks blockType blockKey incoming newId now).1.content =
        (if existingCoreContent blocks blockType blockKey = [] then incoming
         else existingCoreContent blocks blockType blockKey ++ '\n' :: incoming)) ∧
    (updateCoreMemoryAppend blocks blockType blockKey incoming newId now).1.content.length ≤
      CORE_MEMORY_MAX_CHARS ∧
    (updateCoreMemoryAppend blocks blockType blockKey incoming newId now).1.content.take
        (existingCoreContent blocks blockType blockKey).length =
      existingCoreContent blocks blockType blockKey ∧
    (getCoreMemoryBlock
        (updateCoreMemoryAppend blocks blockType blockKey incoming newId now).2
        blockType blockKey).map (·.content) =
      some (updateCoreMemoryAppend blocks blockType blockKey incoming newId now).1.content := by
  have hcur := existingCoreContent_le blocks blockType blockKey h5000
  have hcontent :
      (updateCoreMemoryAppend blocks blockType blockKey incoming newId now).1.content =
      appendCoreContent (existingCoreContent blocks blockType blockKey) incoming := rfl
  refine ⟨?_, ?_, ?_, ?_, ?_⟩
  · intro hlen
    rw [hcontent]
    unfold appendCoreContent
    rw [if_pos hlen]
  · intro hlen
    rw [hcontent]
    unfold appendCoreContent
    rw [if_neg (not_lt.mpr hlen)]
  · rw [hcontent]
    unfold appendCoreContent
    by_cases hlen : CORE_MEMORY_MAX_CHARS <
        (if existingCoreContent blocks blockType blockKey = [] then incoming
         else existingCoreContent blocks blockType blockKey ++ '\n' :: incoming).length
    · rw [if_pos hlen, List.length_take]
      exact min_le_left _ _
    · rw [if_neg hlen]
      exact not_lt.mp hlen
  · rw [hcontent]
    unfold appendCoreContent
    by_cases hnil : existingCoreContent blocks blockType blockKey = []
    · rw [hnil]
      simp
    · rw [if_neg hnil]
      by_cases hlen : CORE_MEMORY_MAX_CHARS <
          (existingCoreContent blocks blockType blockKey ++ '\n' :: incoming).length
      · rw [if_pos hlen, List.take_take,
          min_eq_left hcur, List.take_left]
      · rw [if_neg hlen, List.take_left]
  · exact getCoreMemoryBlock_upsert blocks _

/-- Witness for C8 (amended) at a concrete input. -/
theorem updateCoreMemoryAppend_spec_witness :
    (∀ b ∈ c8Blocks, b.content.length ≤ CORE_MEMORY_MAX_CHARS) ∧
    ((CORE_MEMORY_MAX_CHARS <
        (if existingCoreContent c8Blocks "persona" "default" = [] then ['x']
         else existingCoreContent c8Blocks "persona" "default" ++ '\n' :: ['x']).length →
      (updateCoreMemoryAppend c8Blocks "persona" "default" ['x'] "B2" 1).1.content =
        (if existingCoreContent c8Blocks "persona" "default" = [] then ['x']
         else existingCoreContent c8Blocks "persona" "default" ++ '\n' :: ['x']).take
          CORE_MEMORY_MAX_CHARS) ∧
    ((if existingCoreContent c8Blocks "persona" "default" = [] then ['x']
      else existingCoreContent c8Blocks "persona" "default" ++ '\n' :: ['x']).length ≤
        CORE_MEMORY_MAX_CHARS →
      (updateCoreMemoryAppend c8Blocks "persona" "default" ['x'] "B2" 1).1.content =
        (if existingCoreContent c8Blocks "persona" "default" = [] then ['x']
         else existingCoreContent c8Blocks "persona" "default" ++ '\n' :: ['x'])) ∧
    (updateCoreMemoryAppend c8Blocks "persona" "default" ['x'] "B2" 1).1.content.length ≤
      CORE_MEMORY_MAX_CHARS ∧
    (updateCoreMemoryAppend c8Blocks "persona" "default" ['x'] "B2" 1).1.content.take
        (existingCoreContent c8Blocks "persona" "default").length =
      existingCoreContent c8Blocks "persona" "default" ∧
    (getCoreMemoryBlock
        (updateCoreMemoryAppend c8Blocks "persona" "default" ['x'] "B2" 1).2
        "persona" "default").map (·.content) =
      some (updateCoreMemoryAppend c8Blocks "persona" "default" ['x'] "B2" 1).1.content) :=
  ⟨by decide,
    updateCoreMemoryAppend_spec c8Blocks "persona" "default" ['x'] "B2" 1 (by decide)⟩

/-! ## C7: entity upsert idempotence -/

/-- One de-duplication step preserves `Nodup`. -/
theorem uniqueFirstStep_nodup (acc : List String) (x : String)
    (h : acc.Nodup) : (uniqueFirstStep acc x).Nodup := by
  unfold uniqueFirstStep
  by_cases hx : x ∈ acc
  · rw [if_pos hx]; exact h
  · rw [if_neg hx]
    simp [List.nodup_append, h, hx]

/-- Folding de-duplication steps preserves `Nodup`. -/
theorem foldl_uniqueFirstStep_nodup (l : List String) :
    ∀ acc : List String, acc.Nodup → (l.foldl uniqueFirstStep acc).Nodup := by
  induction l with
  | nil => exact fun acc h => h
  | cons x xs ih =>
    intro acc h
    exact ih _ (uniqueFirstStep_nodup acc x h)

/-- Membership in the de-duplication fold. -/
theorem mem_foldl_uniqueFirstStep (l : List String) :
    ∀ (acc : List String) (y : String),
      y ∈ l.foldl uniqueFirstStep acc ↔ y ∈ acc ∨ y ∈ l := by
  induction l with
  | nil => intro acc y; simp
  | cons x xs ih =>
    intro acc y
    rw [List.foldl_cons, ih]
    unfold uniqueFirstStep
    by_cases hx : x ∈ acc
    · rw [if_pos hx]
      constructor
      · rintro (h | h)
        · exact Or.inl h
        · exact Or.inr (List.mem_cons_of_mem _ h)
      · rintro (h | h)
        · exact Or.inl h
        · rcases List.mem_cons.mp h with h1 | h2
          · exact Or.inl (h1 ▸ hx)
          · exact Or.inr h2
    · rw [if_neg hx]
      simp only [List.mem_append, List.mem_singleton, List.mem_cons]
      tauto

/-- A fold over elements already present leaves the accumulator. -/
theorem foldl_uniqueFirstStep_of_subset (l : List String) :
    ∀ acc : List String, (∀ x ∈ l, x ∈ acc) →
      l.foldl uniqueFirstStep acc = acc := by
  induction l with
  | nil => exact fun acc _ => rfl
  | cons x xs ih =>
    intro acc h
    have hx : x ∈ acc := h x (List.mem_cons_self x xs)
    rw [List.foldl_cons,
      show uniqueFirstStep acc x = acc from by unfold uniqueFirstStep; rw [if_pos hx]]
    exact ih acc (fun y hy => h y (List.mem_cons_of_mem x hy))

/-- A fold over fresh duplicate-free elements appends them. -/
theorem foldl_uniqueFirstStep_of_nodup (l : List String) :
    ∀ acc : List String, (acc ++ l).Nodup →
      l.foldl uniqueFirstStep acc = acc ++ l := by
  induction l with
  | nil => intro acc _; simp
  | cons x xs ih =>
    intro acc h
    have hx : x ∉ acc := by
      intro hmem
      rw [List.nodup_append] at h
      exact h.2.2 hmem (List.mem_cons_self x xs)
    rw [List.foldl_cons,
      show uniqueFirstStep acc x = acc ++ [x] from by
        unfold uniqueFirstStep; rw [if_neg hx]]
    rw [ih (acc ++ [x]) (by simpa using h)]
    simp

/-- `uniqueFirst` produces a duplicate-free list. -/
theorem uniqueFirst_nodup (l : List String) : (uniqueFirst l).Nodup :=
  foldl_uniqueFirstStep_nodup l [] List.nodup_nil

/-- `uniqueFirst` preserves membership. -/
theorem mem_uniqueFirst (l : List String) (y : String) :
    y ∈ uniqueFirst l ↔ y ∈ l := by
  unfold uniqueFirst
  rw [mem_foldl_uniqueFirstStep]
  simp

/-- De-duplicating a duplicate-free list extended by already-present
elements is the identity. -/
theorem uniqueFirst_append_of_subset (l1 l2 : List String)
    (h1 : l1.Nodup) (h2 : ∀ x ∈ l2, x ∈ l1) :
    uniqueFirst (l1 ++ l2) = l1 := by
  unfold uniqueFirst
  rw [List.foldl_append,
    show List.foldl uniqueFirstStep [] l1 = l1 from by
      simpa using foldl_uniqueFirstStep_of_nodup l1 [] (by simpa using h1)]
  exact foldl_uniqueFirstStep_of_subset l2 l1 h2

/-- Upserting an entity built from the found row makes a subsequent
lookup return exactly that entity. -/
theorem getEntityByName_upsertEntity_update (es : List Entity)
    (ent ex : Entity)
    (hfind : es.find? (fun e => e.name.toLower == ent.name.toLower) = some ex)
    (hexname : ex.name = ent.name)
    (hid : ent.id = ex.id) (hcreated : ent.created_at = ex.created_at)
    (haccessed : ent.accessed_at = ex.accessed_at)
    (hcount : ent.access_count = ex.access_count)
    (hsummary : (match ent.summary with
      | some s => some s
      | none => ex.summary) = ent.summary) :
    getEntityByName (upsertEntity es ent) ent.name = some ent := by
  have hexmem : ex ∈ es := List.mem_of_find?_eq_some hfind
  unfold upsertEntity
  have hayes : (es.any fun e => decide (e.name = ent.name)) = true :=
    List.any_eq_true.mpr ⟨ex, hexmem, by
      show decide (ex.name = ent.name) = true
      rw [hexname]; simp⟩
  rw [if_pos hayes]
  unfold getEntityByName
  rw [find?_map_of_pred_eq _ _ _ (fun e => by
    by_cases h0 : e.name = ent.name
    · rw [if_pos h0]
    · rw [if_neg h0]), hfind]
  rw [Option.map_some', Option.some.injEq, if_pos hexname]
  cases ent with
  | mk eid ename etype esum eobs eimp ecr eup eacc ecnt =>
    simp only at hid hcreated haccessed hcount hsummary hexname
    subst hid; subst hcreated; subst haccessed; subst hcount; subst hexname
    simp [hsummary]

/-- Upserting an entity whose name has no case-insensitive match in the
table appends it, and a subsequent lookup returns it. -/
theorem getEntityByName_upsertEntity_insert (es : List Entity)
    (ent : Entity)
    (hfind : es.find? (fun e => e.name.toLower == ent.name.toLower) = none) :
    getEntityByName (upsertEntity es ent) ent.name = some ent := by
  unfold upsertEntity
  have hanot : (es.any fun e => decide (e.name = ent.name)) = false := by
    rw [Bool.eq_false_iff]
    intro ha
    obtain ⟨e0, he0, hd⟩ := List.any_eq_true.mp ha
    have he0n : e0.name = ent.name := of_decide_eq_true hd
    have hp : (fun e : Entity => e.name.toLower == ent.name.toLower) e0 = true := by
      show (e0.name.toLower == ent.name.toLower) = true
      rw [he0n]; simp
    exact absurd hp (List.find?_eq_none.mp hfind e0 he0)
  rw [if_neg (by rw [hanot]; simp)]
  unfold getEntityByName
  rw [List.find?_append, hfind]
  simp

/-- Resolving the optional caller summary against the existing row twice
is the same as resolving it once. -/
theorem option_refill (o y1 y2 : Option String) (hy : y1 = y2) :
    (match (match o with | some s => some s | none => y1) with
      | some s => some s
      | none => y2) = (match o with | some s => some s | none => y1) := by
  subst hy
  cases o with
  | some s => rfl
  | none => cases y1 <;> rfl

/-- After `updateEntity`, looking the entity up by its name returns
exactly the entity the method returned, provided no row of the table
aliases the name under the case-insensitive collation with a different
spelling. -/
theorem getEntityByName_updateEntity (es : List Entity)
    (name entityType : String) (observations : Option (List String))
    (summary : Option String) (importanceP : Option ℚ) (newId : String)
    (now : Int)
    (hexact : ∀ e ∈ es, e.name.toLower = name.toLower → e.name = name) :
    getEntityByName
        (updateEntity es name entityType observations summary importanceP newId now).2
        name =
      some (updateEntity es name entityType observations summary importanceP newId now).1 := by
  cases hex : getEntityByName es name with
  | none =>
    exact getEntityByName_upsertEntity_insert es _ hex
  | some ex =>
    have hfind : es.find? (fun e => e.name.toLower == name.toLower) = some ex := hex
    have hexmem : ex ∈ es := List.mem_of_find?_eq_some hfind
    have hexname : ex.name = name :=
      hexact ex hexmem (by simpa using List.find?_some hfind)
    exact getEntityByName_upsertEntity_update es _ ex hex hexname
      (by show ((getEntityByName es name).map (fun e => e.id)).getD newId = ex.id
          rw [hex]; rfl)
      (by show ((getEntityByName es name).map (fun e => e.created_at)).getD now =
            ex.created_at
          rw [hex]; rfl)
      (by show (getEntityByName es name).bind (fun e => e.accessed_at) =
            ex.accessed_at
          rw [hex]; rfl)
      (by show ((getEntityByName es name).map (fun e => e.access_count)).getD 0 =
            ex.access_count
          rw [hex]; rfl)
      (option_refill summary ((getEntityByName es name).bind (fun e => e.summary))
        ex.summary (by rw [hex]; rfl))

/-- `upsertEntity` preserves the absence of case-variant aliases of a
name. -/
theorem upsertEntity_alias_free (es : List Entity) (ent : Entity)
    (name : String) (hname : ent.name = name)
    (hexact : ∀ e ∈ es, e.name.toLower = name.toLower → e.name = name) :
    ∀ e ∈ upsertEntity es ent, e.name.toLower = name.toLower → e.name = name := by
  intro e he hl
  unfold upsertEntity at he
  by_cases ha : (es.any fun e => decide (e.name = ent.name)) = true
  · rw [if_pos ha] at he
    obtain ⟨e0, he0, hge⟩ := List.mem_map.mp he
    have hn : e.name = e0.name := by
      rw [← hge]
      by_cases h0 : e0.name = ent.name
      · rw [if_pos h0]
      · rw [if_neg h0]
    rw [hn] at hl ⊢
    exact hexact e0 he0 hl
  · rw [if_neg ha] at he
    rcases List.mem_append.mp he with h1 | h2
    · exact hexact e h1 hl
    · rw [List.mem_singleton] at h2
      rw [h2]
      exact hname

/-- `updateEntity` preserves the absence of case-variant aliases. -/
theorem updateEntity_alias_free (es : List Entity)
    (name entityType : String) (observations : Option (List String))
    (summary : Option String) (importanceP : Option ℚ) (newId : String)
    (now : Int)
    (hexact : ∀ e ∈ es, e.name.toLower = name.toLower → e.name = name) :
    ∀ e ∈ (updateEntity es name entityType observations summary importanceP newId now).2,
      e.name.toLower = name.toLower → e.name = name :=
  upsertEntity_alias_free es _ name rfl hexact

/-- C7: upserting the same entity (same name) twice with identical
observation lists leaves the stored observation list unchanged after the
second upsert, preserves `access_count` and `accessed_at` across the
second upsert, and the stored observation list is duplicate-free after
every upsert.  The stored row is read back through the same
case-insensitive name lookup the engine uses; the hypothesis states that
the table holds no case-variant alias of the name (the database enforces
name uniqueness). -/
theorem updateEntity_twice_idempotent (es : List Entity)
    (name entityType : String) (os : List String) (summary : Option String)
    (importanceP : Option ℚ) (id1 id2 : String) (t1 t2 : Int)
    (hexact : ∀ e ∈ es, e.name.toLower = name.toLower → e.name = name) :
    getEntityByName
        (updateEntity es name entityType (some os) summary importanceP id1 t1).2 name =
      some (updateEntity es name entityType (some os) summary importanceP id1 t1).1 ∧
    getEntityByName
        (updateEntity (updateEntity es name entityType (some os) summary importanceP id1 t1).2
          name entityType (some os) summary importanceP id2 t2).2 name =
      some (updateEntity (updateEntity es name entityType (some os) summary importanceP id1 t1).2
        name entityType (some os) summary importanceP id2 t2).1 ∧
    (updateEntity (updateEntity es name entityType (some os) summary importanceP id1 t1).2
        name entityType (some os) summary importanceP id2 t2).1.observations =
      (updateEntity es name entityType (some os) summary importanceP id1 t1).1.observations ∧
    (updateEntity (updateEntity es name entityType (some os) summary importanceP id1 t1).2
        name entityType (some os) summary importanceP id2 t2).1.access_count =
      (updateEntity es name entityType (some os) summary importanceP id1 t1).1.access_count ∧
    (updateEntity (updateEntity es name entityType (some os) summary importanceP id1 t1).2
        name entityType (some os) summary importanceP id2 t2).1.accessed_at =
      (updateEntity es name entityType (some os) summary importanceP id1 t1).1.accessed_at ∧
    (updateEntity es name entityType (some os) summary importanceP id1 t1).1.observations.Nodup ∧
    (updateEntity (updateEntity es name entityType (some os) summary importanceP id1 t1).2
        name entityType (some os) summary importanceP id2 t2).1.observations.Nodup := by
  have h1 := getEntityByName_updateEntity es name entityType (some os) summary
    importanceP id1 t1 hexact
  have hexact1 := updateEntity_alias_free es name entityType (some os) summary
    importanceP id1 t1 hexact
  have h2 := getEntityByName_updateEntity _ name entityType (some os) summary
    importanceP id2 t2 hexact1
  have hnodup1 : (updateEntity es name entityType (some os) summary importanceP
      id1 t1).1.observations.Nodup := uniqueFirst_nodup _
  have hobs2 : (updateEntity (updateEntity es name entityType (some os) summary
        importanceP id1 t1).2 name entityType (some os) summary importanceP
        id2 t2).1.observations =
      uniqueFirst ((updateEntity es name entityType (some os) summary importanceP
        id1 t1).1.observations ++ os) := by
    show uniqueFirst (match getEntityByName (updateEntity es name entityType
        (some os) summary importanceP id1 t1).2 name with
      | some ex => ex.observations ++ (some os).getD []
      | none => (some os).getD []) = _
    rw [h1]
    rfl
  have hsub : ∀ x ∈ os, x ∈ (updateEntity es name entityType (some os) summary
      importanceP id1 t1).1.observations := by
    intro x hx
    show x ∈ uniqueFirst (match getEntityByName es name with
      | some ex => ex.observations ++ (some os).getD []
      | none => (some os).getD [])
    rw [mem_uniqueFirst]
    cases hfind : getEntityByName es name with
    | some ex => simp [hx]
    | none => simpa using hx
  have hobs_eq := uniqueFirst_append_of_subset _ os hnodup1 hsub
  have hcnt : (updateEntity (updateEntity es name entityType (some os) summary
        importanceP id1 t1).2 name entityType (some os) summary importanceP
        id2 t2).1.access_count =
      (updateEntity es name entityType (some os) summary importanceP
        id1 t1).1.access_count := by
    show ((getEntityByName (updateEntity es name entityType (some os) summary
        importanceP id1 t1).2 name).map (fun e => e.access_count)).getD 0 = _
    rw [h1]
    rfl
  have hacc : (updateEntity (updateEntity es name entityType (some os) summary
        importanceP id1 t1).2 name entityType (some os) summary importanceP
        id2 t2).1.accessed_at =
      (updateEntity es name entityType (some os) summary importanceP
        id1 t1).1.accessed_at := by
    show (getEntityByName (updateEntity es name entityType (some os) summary
        importanceP id1 t1).2 name).bind (fun e => e.accessed_at) = _
    rw [h1]
    rfl
  exact ⟨h1, h2, by rw [hobs2, hobs_eq], hcnt, hacc, hnodup1,
    by rw [hobs2]; exact uniqueFirst_nodup _⟩

/-- Witness for C7 at a concrete input. -/
theorem updateEntity_twice_idempotent_witness :
    (∀ e ∈ ([] : List Entity),
      e.name.toLower = "Alice".toLower → e.name = "Alice") ∧
    (updateEntity (updateEntity [] "Alice" "person" (some ["Fact 1"]) none none
        "E1" 0).2 "Alice" "person" (some ["Fact 1"]) none none
        "E2" 1).1.observations =
      (updateEntity [] "Alice" "person" (some ["Fact 1"]) none none
        "E1" 0).1.observations :=
  ⟨by simp,
    (updateEntity_twice_idempotent [] "Alice" "person" ["Fact 1"] none none
      "E1" "E2" 0 1 (by simp)).2.2.1⟩

/-! ## C5: recall scoring bounds, order and truncation -/

/-- Every scored memory produced by a valid configuration has
non-negative score and component scores within `[0, 1]`. -/
theorem scoreOne_bounds (c : Config) (agentFilter : Option String)
    (now : Int) (events : List MemoryEvent) (entities : List Entity)
    (reflections : List Reflection) (r : VectorSearchResult)
    (m : ScoredMemory)
    (hm : scoreOne c agentFilter now events entities reflections r = some m)
    (hc : validConfig c) :
    0 ≤ m.score ∧ 0 ≤ m.recency_score ∧ m.recency_score ≤ 1 ∧
    0 ≤ m.importance_score ∧ m.importance_score ≤ 1 ∧
    0 ≤ m.relevance_score ∧ m.relevance_score ≤ 1 := by
  unfold scoreOne at hm
  split at hm
  · exact absurd hm (by simp)
  · rename_i mem hreseq
    split at hm
    · exact absurd hm (by simp)
    · simp only [Option.some.injEq] at hm
      subst hm
      obtain ⟨⟨hdr0, hdr1⟩, hwr, hwi, hwv, _⟩ := hc
      have hrec0 : (0 : ℚ) ≤
          calculateRecency c ((mem.accessed_at).getD mem.created_at) now :=
        pow_nonneg (le_of_lt hdr0) _
      have hrec1 :
          calculateRecency c ((mem.accessed_at).getD mem.created_at) now ≤ 1 :=
        pow_le_one₀ (le_of_lt hdr0) (le_of_lt hdr1)
      have hrel0 : (0 : ℚ) ≤ max 0 (min 1 (1 - r.distance / 2)) :=
        le_max_left _ _
      have hrel1 : max 0 (min 1 (1 - r.distance / 2)) ≤ (1 : ℚ) :=
        max_le zero_le_one (min_le_left _ _)
      have himp0 : (0 : ℚ) ≤ clamp mem.importance 0 1 :=
        le_min (le_max_right _ _) zero_le_one
      have himp1 : clamp mem.importance 0 1 ≤ (1 : ℚ) := min_le_right _ _
      exact ⟨add_nonneg (add_nonneg (mul_nonneg hwr hrec0)
          (mul_nonneg hwi himp0)) (mul_nonneg hwv hrel0),
        hrec0, hrec1, himp0, himp1, hrel0, hrel1⟩

/-- C5: for every recall call against a valid configuration (whose
weights are all non-negative and whose decay rate lies in `(0, 1)` by
`validateConfig`), the returned memories list has at most `limit` items,
is sorted in descending order of score, and every item's score is
non-negative, each of recency, importance and relevance lying in
`[0, 1]`. -/
theorem recallMemories_spec (c : Config) (limit : Nat)
    (agentFilter : Option String) (includeCore : Bool)
    (coreBlocks : List CoreMemoryBlock)
    (vectorResults : List VectorSearchResult) (events : List MemoryEvent)
    (entities : List Entity) (reflections : List Reflection) (now : Int)
    (hc : validConfig c) :
    (recallMemories c limit agentFilter includeCore coreBlocks vectorResults
      events entities reflections now).memories.length ≤ limit ∧
    List.Sorted scoreDesc (recallMemories c limit agentFilter includeCore
      coreBlocks vectorResults events entities reflections now).memories ∧
    ∀ m ∈ (recallMemories c limit agentFilter includeCore coreBlocks
        vectorResults events entities reflections now).memories,
      0 ≤ m.score ∧ 0 ≤ m.recency_score ∧ m.recency_score ≤ 1 ∧
      0 ≤ m.importance_score ∧ m.importance_score ≤ 1 ∧
      0 ≤ m.relevance_score ∧ m.relevance_score ≤ 1 := by
  refine ⟨?_, ?_, ?_⟩
  · show (List.take limit ((vectorResults.filterMap
        (scoreOne c agentFilter now events entities reflections)).insertionSort
        scoreDesc)).length ≤ limit
    rw [List.length_take]
    exact min_le_left _ _
  · show List.Sorted scoreDesc (List.take limit ((vectorResults.filterMap
      (scoreOne c agentFilter now events entities reflections)).insertionSort
      scoreDesc))
    exact List.Pairwise.sublist (List.take_sublist _ _)
      (List.sorted_insertionSort scoreDesc _)
  · intro m hm
    have hm1 : m ∈ List.take limit ((vectorResults.filterMap
        (scoreOne c agentFilter now events entities reflections)).insertionSort
        scoreDesc) := hm
    have hm2 : m ∈ (vectorResults.filterMap
        (scoreOne c agentFilter now events entities reflections)).insertionSort
        scoreDesc := List.take_subset _ _ hm1
    have hm3 : m ∈ vectorResults.filterMap
        (scoreOne c agentFilter now events entities reflections) :=
      (List.perm_insertionSort scoreDesc _).mem_iff.mp hm2
    obtain ⟨r, _, hr⟩ := List.mem_filterMap.mp hm3
    exact scoreOne_bounds c agentFilter now events entities reflections r m hr hc

/-- The default configuration of core/config.ts. -/
def defaultConfig : Config :=
  { dataDir := "./data"
    decayRate := 995/1000
    reflectionThreshold := 150
    consolidationInterval := 86400000
    mergeSimilarityThreshold := 85/100
    pruneAgeDays := 90
    weightRecency := 4/10
    weightImportance := 3/10
    weightRelevance := 3/10
    embeddingModel := "Xenova/all-MiniLM-L6-v2"
    embeddingDimensions := 384
    anthropicApiKey := none
    logLevel := "info" }

/-- The event hydrated in the C5 witness. -/
def c5Event : MemoryEvent :=
  { id := "01ARZ3NDEKTSV4RRFFQ69G5FAV"
    agent_id := "a"
    event_type := "observation"
    content := "hello"
    importance := 8/10
    entities := []
    metadata := []
    created_at := 0
    accessed_at := none
    access_count := 0 }

/-- Witness for C5 at a concrete input. -/
theorem recallMemories_spec_witness :
    validConfig defaultConfig ∧
    ((recallMemories defaultConfig 20 none true []
      [{ memory_id := "01ARZ3NDEKTSV4RRFFQ69G5FAV", memory_type := .event,
         content := "hello", created_at := 0, distance := 1/2 }]
      [c5Event] [] [] 3600000).memories.length ≤ 20 ∧
    List.Sorted scoreDesc (recallMemories defaultConfig 20 none true []
      [{ memory_id := "01ARZ3NDEKTSV4RRFFQ69G5FAV", memory_type := .event,
         content := "hello", created_at := 0, distance := 1/2 }]
      [c5Event] [] [] 3600000).memories ∧
    ∀ m ∈ (recallMemories defaultConfig 20 none true []
      [{ memory_id := "01ARZ3NDEKTSV4RRFFQ69G5FAV", memory_type := .event,
         content := "hello", created_at := 0, distance := 1/2 }]
      [c5Event] [] [] 3600000).memories,
      0 ≤ m.score ∧ 0 ≤ m.recency_score ∧ m.recency_score ≤ 1 ∧
      0 ≤ m.importance_score ∧ m.importance_score ≤ 1 ∧
      0 ≤ m.relevance_score ∧ m.relevance_score ≤ 1) :=
  ⟨by unfold validConfig defaultConfig; norm_num,
    recallMemories_spec defaultConfig 20 none true []
      [{ memory_id := "01ARZ3NDEKTSV4RRFFQ69G5FAV", memory_type := .event,
         content := "hello", created_at := 0, distance := 1/2 }]
      [c5Event] [] [] 3600000 (by unfold validConfig defaultConfig; norm_num)⟩

end AgentMemory
